import Mathlib

/-!
# Booking ledger and inventory engine: a shallow embedding

This file embeds the booking engine of the flight-booking repository
(`main.py`): the flight inventory `FLIGHTS_DB`, the booking ledger
`BOOKINGS` with its counter `BOOKING_COUNTER`, and the five operations
`search_flights`, `check_flight_availability`, `book_flight`,
`cancel_booking`, `view_booking`.  Python integers become `ℤ`/`ℕ`, money
amounts become `ℚ` with an explicit round-half-to-even rounding to two
decimals (Python's `round(x, 2)`), dictionaries become insertion-ordered
association lists, and the global mutable state becomes an explicit
`EngineState` threaded through every operation.  Timestamps
(`datetime.now()`) are modelled by a `now : ℕ` argument supplied to the
mutating operations.
-/

namespace FlightBooking

/-- Cabin class, the `Literal["economy", "business", "first"]` argument of
`book_flight`. -/
inductive Cabin
  | economy
  | business
  | first
deriving DecidableEq

/-- Booking status: the `"CONFIRMED"` / `"CANCELLED"` strings stored in the
`status` field of a booking. -/
inductive BookingStatus
  | CONFIRMED
  | CANCELLED
deriving DecidableEq

/-- One flight record of `FLIGHTS_DB`:
`{"id": ..., "price": ..., "departure": ..., "arrival": ..., "seats": ...}`. -/
structure Flight where
  id : String
  price : ℤ
  departure : String
  arrival : String
  seats : ℤ
deriving DecidableEq

/-- One booking record as stored in `BOOKINGS` by `book_flight`. -/
structure Booking where
  booking_id : String
  flight_id : String
  route : String
  passengers : ℤ
  cabin_class : Cabin
  passenger_name : String
  passenger_email : String
  total_price : ℚ
  departure : String
  arrival : String
  status : BookingStatus
  booking_date : ℕ
  cancellation_date : Option ℕ
deriving DecidableEq

/-- The global mutable state of the engine: the route-indexed inventory
`FLIGHTS_DB`, the ledger `BOOKINGS` (an insertion-ordered dictionary), and
`BOOKING_COUNTER`. -/
structure EngineState where
  flights_db : List (String × List Flight)
  bookings : List (String × Booking)
  booking_counter : ℕ
deriving DecidableEq

/-- The cabin-class multiplier table of `book_flight`:
`{"economy": 1.0, "business": 2.5, "first": 4.0}`. -/
def Cabin.multiplier : Cabin → ℚ
  | .economy => 1
  | .business => 5 / 2
  | .first => 4

/-- Round half to even to an integer, the behaviour of Python's `round`. -/
def roundHalfEven (q : ℚ) : ℤ :=
  if q - ⌊q⌋ < 1 / 2 then ⌊q⌋
  else if 1 / 2 < q - ⌊q⌋ then ⌊q⌋ + 1
  else if ⌊q⌋ % 2 = 0 then ⌊q⌋ else ⌊q⌋ + 1

/-- Python's `round(q, 2)`: round to two decimal places, half to even. -/
def round2 (q : ℚ) : ℚ := (roundHalfEven (q * 100) : ℚ) / 100

/-- The email shape test of `book_flight`: `"@" in passenger_email` and
`"." in passenger_email`, i.e. both characters occur in the email string. -/
def validEmail (e : String) : Bool := e.data.contains '@' && e.data.contains '.'

/-- The flight lookup loop
`for route, flights in FLIGHTS_DB.items(): for flight in flights: if flight["id"] == flight_id`,
returning the route key together with the first matching flight. -/
def findFlight : List (String × List Flight) → String → Option (String × Flight)
  | [], _ => none
  | (route, fs) :: rest, fid =>
    match fs.find? (fun f => f.id == fid) with
    | some f => some (route, f)
    | none => findFlight rest fid

/-- Decrement the seats of the first flight with the given id in one route's
flight list (`flight["seats"] -= passengers` on the flight found). -/
def decSeatsIn : List Flight → String → ℤ → List Flight
  | [], _, _ => []
  | f :: fs, fid, p =>
    if f.id == fid then { f with seats := f.seats - p } :: fs
    else f :: decSeatsIn fs fid p

/-- Seat decrement of `book_flight`: the loop stops at the first route
containing the flight and updates that flight in place. -/
def decSeats : List (String × List Flight) → String → ℤ → List (String × List Flight)
  | [], _, _ => []
  | (route, fs) :: rest, fid, p =>
    if fs.any (fun f => f.id == fid) then (route, decSeatsIn fs fid p) :: rest
    else (route, fs) :: decSeats rest fid p

/-- Seat restore of `cancel_booking`: its loop has no early exit, so every
flight whose id matches gets `flight["seats"] += booking["passengers"]`. -/
def incSeats (db : List (String × List Flight)) (fid : String) (p : ℤ) :
    List (String × List Flight) :=
  db.map fun rf =>
    (rf.1, rf.2.map fun f => if f.id == fid then { f with seats := f.seats + p } else f)

/-- Dictionary lookup `FLIGHTS_DB.get(route, [])`. -/
def lookupRoute (db : List (String × List Flight)) (key : String) : List Flight :=
  match db.find? (fun rf => rf.1 == key) with
  | some rf => rf.2
  | none => []

/-- Dictionary lookup `BOOKINGS[booking_id]` (with the `in` test). -/
def lookupBooking (bs : List (String × Booking)) (bid : String) : Option Booking :=
  (bs.find? (fun kb => kb.1 == bid)).map Prod.snd

/-- In-place mutation of the booking stored under a key. -/
def updateBooking (bs : List (String × Booking)) (bid : String) (g : Booking → Booking) :
    List (String × Booking) :=
  bs.map fun kb => if kb.1 == bid then (kb.1, g kb.2) else kb

/-- The possible outcomes of `search_flights`. -/
inductive SearchResult
  | invalidRoute
  | routeNotFound (origin destination : String)
  | ok (origin destination departure_date : String) (flights : List Flight) (count : ℕ)
deriving DecidableEq

/-- The possible outcomes of `check_flight_availability`. -/
inductive AvailabilityResult
  | invalidPassengerCount
  | flightNotFound
  | ok (flight_id route : String) (passengers_requested seats_available : ℤ)
      (can_book : Bool) (price_per_person : ℤ) (total_price : Option ℤ)
      (departure arrival : String)
deriving DecidableEq

/-- The possible outcomes of `book_flight`. -/
inductive BookResult
  | invalidEmail
  | insufficientSeats (requested available : ℤ)
  | flightNotFound
  | ok (booking : Booking)
deriving DecidableEq

/-- The possible outcomes of `cancel_booking`. -/
inductive CancelResult
  | bookingNotFound
  | emailMismatch
  | alreadyCancelled
  | ok (booking_id : String) (refund_amount original_amount cancellation_fee : ℚ)
deriving DecidableEq

/-- The possible outcomes of `view_booking`. -/
inductive ViewResult
  | bookingNotFound
  | ok (booking : Booking)
deriving DecidableEq

/-- Translation of `search_flights(origin, destination, departure_date)`. -/
def search_flights (s : EngineState) (origin destination departure_date : String) :
    SearchResult × EngineState :=
  if origin == destination then (.invalidRoute, s)
  else
    let flights := lookupRoute s.flights_db (origin ++ "-" ++ destination)
    if flights.isEmpty then (.routeNotFound origin destination, s)
    else (.ok origin destination departure_date flights flights.length, s)

/-- Translation of `check_flight_availability(flight_id, passengers)`. -/
def check_flight_availability (s : EngineState) (flight_id : String) (passengers : ℤ) :
    AvailabilityResult × EngineState :=
  if passengers < 1 ∨ 9 < passengers then (.invalidPassengerCount, s)
  else
    match findFlight s.flights_db flight_id with
    | none => (.flightNotFound, s)
    | some (route, f) =>
      let is_available : Bool := decide (passengers ≤ f.seats)
      (.ok flight_id route passengers f.seats is_available f.price
        (if is_available then some (f.price * passengers) else none)
        f.departure f.arrival, s)

/-- Translation of
`book_flight(flight_id, passengers, cabin_class, passenger_name, passenger_email)`. -/
def book_flight (s : EngineState) (flight_id : String) (passengers : ℤ)
    (cabin_class : Cabin) (passenger_name passenger_email : String) (now : ℕ) :
    BookResult × EngineState :=
  if validEmail passenger_email then
    match findFlight s.flights_db flight_id with
    | none => (.flightNotFound, s)
    | some (route, f) =>
      if f.seats < passengers then (.insufficientSeats passengers f.seats, s)
      else
        let total_price := round2 ((f.price : ℚ) * (passengers : ℚ) * cabin_class.multiplier)
        let booking_id := "BK" ++ toString s.booking_counter
        let b : Booking :=
          { booking_id := booking_id
            flight_id := flight_id
            route := route
            passengers := passengers
            cabin_class := cabin_class
            passenger_name := passenger_name
            passenger_email := passenger_email
            total_price := total_price
            departure := f.departure
            arrival := f.arrival
            status := .CONFIRMED
            booking_date := now
            cancellation_date := none }
        (.ok b,
          { flights_db := decSeats s.flights_db flight_id passengers
            bookings := s.bookings ++ [(booking_id, b)]
            booking_counter := s.booking_counter + 1 })
  else (.invalidEmail, s)

/-- Translation of `cancel_booking(booking_id, passenger_email)`. -/
def cancel_booking (s : EngineState) (booking_id passenger_email : String) (now : ℕ) :
    CancelResult × EngineState :=
  match lookupBooking s.bookings booking_id with
  | none => (.bookingNotFound, s)
  | some b =>
    if b.passenger_email ≠ passenger_email then (.emailMismatch, s)
    else if b.status = .CANCELLED then (.alreadyCancelled, s)
    else
      (.ok booking_id (round2 (b.total_price * (9 / 10))) b.total_price
        (round2 (b.total_price * (1 / 10))),
        { flights_db := incSeats s.flights_db b.flight_id b.passengers
          bookings := updateBooking s.bookings booking_id
            (fun b0 => { b0 with status := .CANCELLED, cancellation_date := some now })
          booking_counter := s.booking_counter })

/-- Translation of `view_booking(booking_id)`. -/
def view_booking (s : EngineState) (booking_id : String) : ViewResult × EngineState :=
  match lookupBooking s.bookings booking_id with
  | none => (.bookingNotFound, s)
  | some b => (.ok b, s)

/-- The seeded inventory `FLIGHTS_DB` of `main.py`. -/
def FLIGHTS_DB : List (String × List Flight) :=
  [("NYC-LON",
    [{ id := "BA001", price := 850, departure := "08:00", arrival := "20:00", seats := 45 },
     { id := "AA102", price := 920, departure := "14:30", arrival := "02:30", seats := 12 }]),
   ("NYC-TYO",
    [{ id := "JL005", price := 1200, departure := "13:00", arrival := "16:00+1", seats := 23 },
     { id := "AA150", price := 1150, departure := "18:45", arrival := "22:15+1", seats := 8 }]),
   ("LAX-TYO",
    [{ id := "JL062", price := 980, departure := "11:00", arrival := "15:30+1", seats := 56 },
     { id := "NH175", price := 1050, departure := "17:00", arrival := "21:00+1", seats := 34 }]),
   ("LON-PAR",
    [{ id := "AF318", price := 180, departure := "09:15", arrival := "11:45", seats := 89 },
     { id := "BA304", price := 195, departure := "16:00", arrival := "18:30", seats := 67 }])]

/-- The start state: the seeded inventory, `BOOKINGS = {}`,
`BOOKING_COUNTER = 1000`. -/
def seedState : EngineState :=
  { flights_db := FLIGHTS_DB, bookings := [], booking_counter := 1000 }

/-- One engine operation together with its arguments. -/
inductive Op
  | search (origin destination departure_date : String)
  | check (flight_id : String) (passengers : ℤ)
  | book (flight_id : String) (passengers : ℤ) (cabin_class : Cabin)
      (passenger_name passenger_email : String) (now : ℕ)
  | cancel (booking_id passenger_email : String) (now : ℕ)
  | view (booking_id : String)

/-- The state transition of a single engine operation. -/
def step (s : EngineState) : Op → EngineState
  | .search o d dt => (search_flights s o d dt).2
  | .check fid p => (check_flight_availability s fid p).2
  | .book fid p c nm em t => (book_flight s fid p c nm em t).2
  | .cancel bid em t => (cancel_booking s bid em t).2
  | .view bid => (view_booking s bid).2

/-- Run a sequence of engine operations from the seeded start state. -/
def run (ops : List Op) : EngineState := ops.foldl step seedState

/-- All flights of an inventory, in stored order. -/
def flightsOf (db : List (String × List Flight)) : List Flight :=
  (db.map Prod.snd).flatten

/-- Current seat count of a flight id (0 if absent). -/
def seatsOf (s : EngineState) (fid : String) : ℤ :=
  match findFlight s.flights_db fid with
  | some rf => rf.2.seats
  | none => 0

/-- Contribution of one booking to the confirmed-passenger total of a flight. -/
def contrib (b : Booking) (fid : String) : ℤ :=
  if b.status = .CONFIRMED ∧ b.flight_id = fid then b.passengers else 0

/-- Sum of passengers over all CONFIRMED bookings that reference a flight. -/
def confirmedSum (bs : List (String × Booking)) (fid : String) : ℤ :=
  (bs.map fun kb => contrib kb.2 fid).sum

/-- A flight with its mutable seat count forgotten. -/
def stripSeats (f : Flight) : String × ℤ × String × String :=
  (f.id, f.price, f.departure, f.arrival)

/-- Initial seat capacity of a flight id in the seeded inventory. -/
def initialSeats (fid : String) : ℤ :=
  match findFlight FLIGHTS_DB fid with
  | some rf => rf.2.seats
  | none => 0

/-- The booking id allocated from a counter value: `f"BK{BOOKING_COUNTER}"`. -/
def bkId (n : ℕ) : String := "BK" ++ toString n

/-! ## Injectivity of the decimal representation

Booking ids are the strings `"BK" ++ toString n`.  To show ids are never
reused we prove that `Nat.repr` is injective, via a decoding function that
recovers the number from its digit string. -/

/-- Decimal value of a digit character. -/
def digitVal (c : Char) : ℕ := c.toNat - 48

/-- Decode a most-significant-first digit string back to a number. -/
def decodeDigits (cs : List Char) : ℕ := cs.foldl (fun a c => 10 * a + digitVal c) 0

/-- The seat update of one flight used to describe `decSeatsIn` on unique ids. -/
def decOne (fid : String) (p : ℤ) (f : Flight) : Flight :=
  if f.id == fid then { f with seats := f.seats - p } else f

/-- The seat update of one flight performed by `incSeats`. -/
def incOne (fid : String) (p : ℤ) (f : Flight) : Flight :=
  if f.id == fid then { f with seats := f.seats + p } else f

/-- The booking record created by a successful `book_flight` call. -/
def newBooking (s : EngineState) (fid r : String) (p : ℤ) (c : Cabin)
    (nm em : String) (t : ℕ) (f : Flight) : Booking :=
  { booking_id := "BK" ++ toString s.booking_counter
    flight_id := fid
    route := r
    passengers := p
    cabin_class := c
    passenger_name := nm
    passenger_email := em
    total_price := round2 ((f.price : ℚ) * (p : ℚ) * c.multiplier)
    departure := f.departure
    arrival := f.arrival
    status := .CONFIRMED
    booking_date := t
    cancellation_date := none }

/-- The ledger keys present once the counter has reached `c`:
`BK1000, BK1001, ..., BK(c-1)`. -/
def bkRange (c : ℕ) : List String := (List.range' 1000 (c - 1000)).map bkId

/-- The invariant that every reachable engine state satisfies: the inventory
keeps its seeded shape (only seat counts mutate), the ledger keys are exactly
`BK1000 .. BK(counter-1)` in allocation order, and every flight's seat count
accounts exactly for the CONFIRMED bookings that reference it. -/
structure Inv (s : EngineState) : Prop where
  shape : (flightsOf s.flights_db).map stripSeats = (flightsOf FLIGHTS_DB).map stripSeats
  keys : s.bookings.map Prod.fst = bkRange s.booking_counter
  counter_ge : 1000 ≤ s.booking_counter
  conserve : ∀ f ∈ flightsOf s.flights_db,
    f.seats = initialSeats f.id - confirmedSum s.bookings f.id

/-- The operation requests a nonnegative passenger count (vacuous for all
operations except `book`). -/
def OpNonneg : Op → Prop
  | .book _ p _ _ _ _ => 0 ≤ p
  | _ => True

/-- Auxiliary invariant available on traces whose book calls all pass
nonnegative passenger counts. -/
structure InvN (s : EngineState) : Prop where
  nonneg_pass : ∀ kb ∈ s.bookings, 0 ≤ (Prod.snd kb).passengers
  nonneg_seats : ∀ f ∈ flightsOf s.flights_db, 0 ≤ f.seats

/-- Out-of-band change of a flight's base price.  Modelled from the spec:
no engine operation mutates a flight's `price`, so the price-freezing
property perturbs the inventory directly, leaving everything else alone. -/
def setPrice (s : EngineState) (fid : String) (newPrice : ℤ) : EngineState :=
  { s with flights_db := s.flights_db.map fun rf =>
      (rf.1, rf.2.map fun f => if f.id == fid then { f with price := newPrice } else f) }

/-- The flight list carried by a successful search result. -/
def searchResultFlights : SearchResult → List Flight
  | .ok _ _ _ fs _ => fs
  | _ => []

/-- The seeded `JL005` flight record from the booking scenario. -/
def scFlight : Flight :=
  { id := "JL005", price := 1200, departure := "13:00", arrival := "16:00+1", seats := 23 }

/-- The booking created by the scenario call
`book("JL005", 2, "business", "John Smith", "john@email.com")`. -/
def scBooking : Booking :=
  newBooking seedState "JL005" "NYC-TYO" 2 .business "John Smith" "john@email.com" 0 scFlight

/-- The engine state right after the scenario booking. -/
def bookedState : EngineState :=
  (book_flight seedState "JL005" 2 .business "John Smith" "john@email.com" 0).2

/-- The one-booking demonstration trace. -/
def demoOps : List Op := [Op.book "JL005" 2 .business "John Smith" "john@email.com" 0]

/-- The `JL005` flight record right after the scenario booking. -/
def jl005After : Flight :=
  { id := "JL005", price := 1200, departure := "13:00", arrival := "16:00+1", seats := 21 }

theorem digitVal_digitChar {n : ℕ} (h : n < 10) : digitVal (Nat.digitChar n) = n := by
  interval_cases n <;> rfl

theorem toDigitsCore_append (fuel : ℕ) :
    ∀ (n : ℕ) (ds : List Char),
      Nat.toDigitsCore 10 fuel n ds = Nat.toDigitsCore 10 fuel n [] ++ ds := by
  induction fuel with
  | zero => intro n ds; rfl
  | succ fuel ih =>
    intro n ds
    simp only [Nat.toDigitsCore]
    by_cases h : n / 10 = 0
    · simp [h]
    · rw [if_neg h, if_neg h, ih (n / 10) (Nat.digitChar (n % 10) :: ds),
        ih (n / 10) [Nat.digitChar (n % 10)], List.append_assoc]
      rfl

theorem toDigitsCore_fuel :
    ∀ (n f₁ f₂ : ℕ), n < f₁ → n < f₂ →
      Nat.toDigitsCore 10 f₁ n [] = Nat.toDigitsCore 10 f₂ n [] := by
  intro n
  induction n using Nat.strong_induction_on with
  | _ n ih =>
    intro f₁ f₂ h₁ h₂
    match f₁, f₂ with
    | g₁ + 1, g₂ + 1 =>
      simp only [Nat.toDigitsCore]
      by_cases h : n / 10 = 0
      · simp [h]
      · simp only [h, if_neg h]
        rw [toDigitsCore_append g₁, toDigitsCore_append g₂]
        have hn : 0 < n := by
          rcases Nat.eq_zero_or_pos n with h0 | h0
          · exact absurd (by simp [h0]) h
          · exact h0
        have hlt : n / 10 < n := Nat.div_lt_self hn (by omega)
        rw [ih (n / 10) hlt g₁ g₂ (by omega) (by omega)]

theorem toDigits_step {n : ℕ} (h : 10 ≤ n) :
    Nat.toDigits 10 n = Nat.toDigits 10 (n / 10) ++ [Nat.digitChar (n % 10)] := by
  have hdiv : n / 10 ≠ 0 := by
    have : 1 ≤ n / 10 := (Nat.le_div_iff_mul_le (by omega)).2 (by omega)
    omega
  have hlt : n / 10 < n := Nat.div_lt_self (by omega) (by omega)
  have h1 : Nat.toDigitsCore 10 (n + 1) n [] =
      Nat.toDigitsCore 10 n (n / 10) [Nat.digitChar (n % 10)] := by
    simp only [Nat.toDigitsCore]
    rw [if_neg hdiv]
  show Nat.toDigitsCore 10 (n + 1) n [] = _
  rw [h1, toDigitsCore_append n,
    toDigitsCore_fuel (n / 10) n (n / 10 + 1) hlt (Nat.lt_succ_self _)]
  rfl

theorem toDigits_small {n : ℕ} (h : n < 10) :
    Nat.toDigits 10 n = [Nat.digitChar n] := by
  have hdiv : n / 10 = 0 := Nat.div_eq_of_lt h
  simp [Nat.toDigits, Nat.toDigitsCore, hdiv, Nat.mod_eq_of_lt h]

theorem decode_toDigits : ∀ n : ℕ, decodeDigits (Nat.toDigits 10 n) = n := by
  intro n
  induction n using Nat.strong_induction_on with
  | _ n ih =>
    by_cases h : n < 10
    · rw [toDigits_small h]
      simp [decodeDigits, digitVal_digitChar h]
    · rw [toDigits_step (by omega)]
      have hlt : n / 10 < n := Nat.div_lt_self (by omega) (by omega)
      have hmod : n % 10 < 10 := Nat.mod_lt _ (by omega)
      simp only [decodeDigits, List.foldl_append, List.foldl_cons, List.foldl_nil]
      have := ih (n / 10) hlt
      simp only [decodeDigits] at this
      rw [this, digitVal_digitChar hmod]
      omega

theorem natRepr_injective : Function.Injective Nat.repr := by
  intro a b h
  have hd : (Nat.toDigits 10 a) = (Nat.toDigits 10 b) := by
    have := congrArg String.data h
    simpa [Nat.repr, List.asString] using this
  calc a = decodeDigits (Nat.toDigits 10 a) := (decode_toDigits a).symm
    _ = decodeDigits (Nat.toDigits 10 b) := by rw [hd]
    _ = b := decode_toDigits b

theorem bkId_injective : Function.Injective bkId := by
  intro a b h
  apply natRepr_injective
  have := congrArg String.data h
  simp only [bkId, String.data_append] at this
  have harepr : toString a = Nat.repr a := rfl
  have hbrepr : toString b = Nat.repr b := rfl
  rw [harepr, hbrepr] at this
  have : (Nat.repr a).data = (Nat.repr b).data := List.append_cancel_left this
  cases hra : Nat.repr a
  cases hrb : Nat.repr b
  simp_all

/-! ## Structural lemmas about the inventory and the ledger -/

theorem findFlight_flatten (db : List (String × List Flight)) (fid : String) :
    (findFlight db fid).map Prod.snd = (flightsOf db).find? (fun f => f.id == fid) := by
  induction db with
  | nil => rfl
  | cons rf rest ih =>
    obtain ⟨route, fs⟩ := rf
    simp only [findFlight, flightsOf, List.map_cons, List.flatten_cons, List.find?_append]
    cases h : fs.find? (fun f => f.id == fid) with
    | some f => simp [h]
    | none => simpa [h, flightsOf] using ih

theorem findFlight_eq_none_iff {db : List (String × List Flight)} {fid : String} :
    findFlight db fid = none ↔ ∀ f ∈ flightsOf db, f.id ≠ fid := by
  have hmap : findFlight db fid = none ↔ (findFlight db fid).map Prod.snd = none := by
    cases findFlight db fid <;> simp
  rw [hmap, findFlight_flatten, List.find?_eq_none]
  simp

theorem findFlight_mem {db : List (String × List Flight)} {fid r : String} {f : Flight}
    (h : findFlight db fid = some (r, f)) : f ∈ flightsOf db ∧ f.id = fid := by
  have hmap : (findFlight db fid).map Prod.snd = some f := by rw [h]; rfl
  rw [findFlight_flatten] at hmap
  exact ⟨List.mem_of_find?_eq_some hmap, by simpa using List.find?_some hmap⟩

theorem decSeatsIn_append (l₁ l₂ : List Flight) (fid : String) (p : ℤ) :
    decSeatsIn (l₁ ++ l₂) fid p =
      if l₁.any (fun f => f.id == fid) then decSeatsIn l₁ fid p ++ l₂
      else l₁ ++ decSeatsIn l₂ fid p := by
  induction l₁ with
  | nil => simp
  | cons f t ih =>
    by_cases h : (f.id == fid)
    · simp [decSeatsIn, h]
    · simp only [List.cons_append, decSeatsIn, h, Bool.false_eq_true, if_false, ih,
        List.any_cons, Bool.false_or]
      by_cases h2 : t.any (fun f => f.id == fid) <;> simp [h2, ih]

theorem flightsOf_decSeats (db : List (String × List Flight)) (fid : String) (p : ℤ) :
    flightsOf (decSeats db fid p) = decSeatsIn (flightsOf db) fid p := by
  induction db with
  | nil => rfl
  | cons rf rest ih =>
    obtain ⟨route, fs⟩ := rf
    simp only [decSeats]
    by_cases h : fs.any (fun f => f.id == fid)
    · rw [if_pos h]
      simp only [flightsOf, List.map_cons, List.flatten_cons, decSeatsIn_append, if_pos h]
    · rw [if_neg h]
      simp only [flightsOf, List.map_cons, List.flatten_cons, decSeatsIn_append, if_neg h]
      simpa [flightsOf] using ih

theorem flightsOf_incSeats (db : List (String × List Flight)) (fid : String) (p : ℤ) :
    flightsOf (incSeats db fid p) = (flightsOf db).map (incOne fid p) := by
  simp only [flightsOf, incSeats, List.map_map, List.map_flatten, incOne]
  rfl

theorem find?_decSeatsIn (l : List Flight) (fid : String) (p : ℤ) :
    (decSeatsIn l fid p).find? (fun f => f.id == fid) =
      (l.find? (fun f => f.id == fid)).map (fun f => { f with seats := f.seats - p }) := by
  induction l with
  | nil => rfl
  | cons f t ih =>
    by_cases h : (f.id == fid)
    · simp [decSeatsIn, h]
    · simp [decSeatsIn, h, ih]

theorem decSeatsIn_eq_map {l : List Flight} {fid : String} (p : ℤ)
    (hnd : (l.map Flight.id).Nodup) :
    decSeatsIn l fid p = l.map (decOne fid p) := by
  induction l with
  | nil => rfl
  | cons f t ih =>
    simp only [List.map_cons, List.nodup_cons] at hnd
    by_cases h : (f.id == fid)
    · have hfid : f.id = fid := by simpa using h
      have ht : t.map (decOne fid p) = t := by
        have hcongr : ∀ g ∈ t, decOne fid p g = id g := by
          intro g hg
          have hne : ¬(g.id == fid) = true := by
            simp only [beq_iff_eq]
            intro he
            have hmem : g.id ∈ t.map Flight.id := List.mem_map_of_mem Flight.id hg
            rw [he, ← hfid] at hmem
            exact hnd.1 hmem
          simp [decOne, hne]
        rw [List.map_congr_left hcongr, List.map_id]
      simp [decSeatsIn, h, decOne, ht]
    · simp [decSeatsIn, h, decOne, ih hnd.2]

theorem stripSeats_decOne (fid : String) (p : ℤ) (f : Flight) :
    stripSeats (decOne fid p f) = stripSeats f := by
  by_cases h : (f.id == fid) <;> simp [decOne, h, stripSeats]

theorem stripSeats_incOne (fid : String) (p : ℤ) (f : Flight) :
    stripSeats (incOne fid p f) = stripSeats f := by
  by_cases h : (f.id == fid) <;> simp [incOne, h, stripSeats]

theorem id_decOne (fid : String) (p : ℤ) (f : Flight) : (decOne fid p f).id = f.id := by
  by_cases h : (f.id == fid) <;> simp [decOne, h]

theorem id_incOne (fid : String) (p : ℤ) (f : Flight) : (incOne fid p f).id = f.id := by
  by_cases h : (f.id == fid) <;> simp [incOne, h]

/-! ## Ledger lemmas -/

theorem keys_updateBooking (bs : List (String × Booking)) (bid : String)
    (g : Booking → Booking) :
    (updateBooking bs bid g).map Prod.fst = bs.map Prod.fst := by
  simp only [updateBooking, List.map_map]
  apply List.map_congr_left
  intro kb _
  by_cases h : kb.1 = bid <;> simp [h]

theorem lookupBooking_updateBooking (bs : List (String × Booking)) (bid bid' : String)
    (g : Booking → Booking) :
    lookupBooking (updateBooking bs bid g) bid' =
      (lookupBooking bs bid').map (fun b => if bid' == bid then g b else b) := by
  simp only [lookupBooking, updateBooking]
  rw [List.find?_map]
  have hp : ((fun kb : String × Booking => kb.1 == bid') ∘
      fun kb => if kb.1 == bid then (kb.1, g kb.2) else kb) =
      fun kb : String × Booking => kb.1 == bid' := by
    funext kb
    by_cases h : kb.1 = bid <;> simp [h]
  rw [hp]
  cases hf : bs.find? (fun kb => kb.1 == bid') with
  | none => rfl
  | some kb =>
    have hkey : kb.1 = bid' := by simpa using List.find?_some hf
    by_cases h : kb.1 = bid
    · have hb : bid' = bid := by rw [← hkey, h]
      simp [h, hb]
    · have hb : ¬ bid' = bid := by rw [← hkey]; exact h
      simp [h, hb]

theorem lookupBooking_append (bs₁ bs₂ : List (String × Booking)) (bid : String) :
    lookupBooking (bs₁ ++ bs₂) bid =
      (lookupBooking bs₁ bid).or (lookupBooking bs₂ bid) := by
  simp only [lookupBooking, List.find?_append]
  cases bs₁.find? (fun kb => kb.1 == bid) <;> simp

theorem lookupBooking_eq_none_iff {bs : List (String × Booking)} {bid : String} :
    lookupBooking bs bid = none ↔ ∀ kb ∈ bs, kb.1 ≠ bid := by
  simp only [lookupBooking, Option.map_eq_none', List.find?_eq_none]
  simp

theorem lookupBooking_split {bs : List (String × Booking)} {bid : String} {b : Booking}
    (h : lookupBooking bs bid = some b) :
    ∃ l₁ l₂, bs = l₁ ++ (bid, b) :: l₂ ∧ ∀ kb ∈ l₁, (kb.1 == bid) = false := by
  simp only [lookupBooking, Option.map_eq_some'] at h
  obtain ⟨kb0, hfind, hsnd⟩ := h
  rw [List.find?_eq_some] at hfind
  obtain ⟨hpred, l₁, l₂, hsplit, hl₁⟩ := hfind
  have hkey : kb0.1 = bid := by simpa using hpred
  refine ⟨l₁, l₂, ?_, ?_⟩
  · rw [hsplit]
    congr 1
    rw [← hkey, ← hsnd]
  · intro kb hkb
    simpa using hl₁ kb hkb

theorem confirmedSum_append (bs₁ bs₂ : List (String × Booking)) (fid : String) :
    confirmedSum (bs₁ ++ bs₂) fid = confirmedSum bs₁ fid + confirmedSum bs₂ fid := by
  simp [confirmedSum]

theorem confirmedSum_cons (kb : String × Booking) (bs : List (String × Booking))
    (fid : String) :
    confirmedSum (kb :: bs) fid = contrib kb.2 fid + confirmedSum bs fid := by
  simp [confirmedSum]

theorem updateBooking_no_match {l : List (String × Booking)} {bid : String}
    {g : Booking → Booking} (h : ∀ kb ∈ l, (kb.1 == bid) = false) :
    updateBooking l bid g = l := by
  simp only [updateBooking]
  have : ∀ kb ∈ l, (if kb.1 == bid then (kb.1, g kb.2) else kb) = id kb := by
    intro kb hkb
    simp [h kb hkb]
  rw [List.map_congr_left this, List.map_id]

theorem updateBooking_append (l₁ l₂ : List (String × Booking)) (bid : String)
    (g : Booking → Booking) :
    updateBooking (l₁ ++ l₂) bid g = updateBooking l₁ bid g ++ updateBooking l₂ bid g := by
  simp [updateBooking]

/-! ## Read-only operations leave the state unchanged -/

theorem search_flights_state (s : EngineState) (o d dt : String) :
    (search_flights s o d dt).2 = s := by
  unfold search_flights
  split
  · rfl
  · dsimp only
    split <;> rfl

theorem check_flight_availability_state (s : EngineState) (fid : String) (p : ℤ) :
    (check_flight_availability s fid p).2 = s := by
  unfold check_flight_availability
  split
  · rfl
  · split <;> rfl

theorem view_booking_state (s : EngineState) (bid : String) :
    (view_booking s bid).2 = s := by
  unfold view_booking
  split <;> rfl

/-! ## Case characterizations of `book_flight` and `cancel_booking` -/

theorem book_flight_invalidEmail {em : String} (s : EngineState) (fid : String) (p : ℤ)
    (c : Cabin) (nm : String) (t : ℕ) (hem : validEmail em = false) :
    book_flight s fid p c nm em t = (.invalidEmail, s) := by
  unfold book_flight
  rw [hem]
  rfl

theorem book_flight_notFound {s : EngineState} {fid em : String} (p : ℤ) (c : Cabin)
    (nm : String) (t : ℕ) (hem : validEmail em = true)
    (hff : findFlight s.flights_db fid = none) :
    book_flight s fid p c nm em t = (.flightNotFound, s) := by
  unfold book_flight
  rw [hem, hff]
  rfl

theorem book_flight_insufficient {s : EngineState} {fid em r : String} {f : Flight}
    {p : ℤ} (c : Cabin) (nm : String) (t : ℕ) (hem : validEmail em = true)
    (hff : findFlight s.flights_db fid = some (r, f)) (hseats : f.seats < p) :
    book_flight s fid p c nm em t = (.insufficientSeats p f.seats, s) := by
  unfold book_flight
  rw [hem, hff]
  simp [hseats]

theorem book_flight_success {s : EngineState} {fid em r : String} {f : Flight} {p : ℤ}
    (c : Cabin) (nm : String) (t : ℕ) (hem : validEmail em = true)
    (hff : findFlight s.flights_db fid = some (r, f)) (hseats : ¬f.seats < p) :
    book_flight s fid p c nm em t =
      (.ok (newBooking s fid r p c nm em t f),
        { flights_db := decSeats s.flights_db fid p
          bookings := s.bookings ++ [(bkId s.booking_counter, newBooking s fid r p c nm em t f)]
          booking_counter := s.booking_counter + 1 }) := by
  unfold book_flight
  rw [hem, hff]
  simp only [hseats, if_false]
  rfl

theorem cancel_booking_notFound {s : EngineState} {bid : String} (em : String) (t : ℕ)
    (hb : lookupBooking s.bookings bid = none) :
    cancel_booking s bid em t = (.bookingNotFound, s) := by
  unfold cancel_booking
  rw [hb]

theorem cancel_booking_mismatch {s : EngineState} {bid em : String} {b : Booking} (t : ℕ)
    (hb : lookupBooking s.bookings bid = some b)
    (hem : b.passenger_email ≠ em) :
    cancel_booking s bid em t = (.emailMismatch, s) := by
  unfold cancel_booking
  rw [hb]
  simp [hem]

theorem cancel_booking_already {s : EngineState} {bid em : String} {b : Booking} (t : ℕ)
    (hb : lookupBooking s.bookings bid = some b)
    (hem : b.passenger_email = em) (hst : b.status = .CANCELLED) :
    cancel_booking s bid em t = (.alreadyCancelled, s) := by
  unfold cancel_booking
  rw [hb]
  simp [hem, hst]

theorem cancel_booking_success {s : EngineState} {bid em : String} {b : Booking} (t : ℕ)
    (hb : lookupBooking s.bookings bid = some b)
    (hem : b.passenger_email = em) (hst : b.status ≠ .CANCELLED) :
    cancel_booking s bid em t =
      (.ok bid (round2 (b.total_price * (9 / 10))) b.total_price
          (round2 (b.total_price * (1 / 10))),
        { flights_db := incSeats s.flights_db b.flight_id b.passengers
          bookings := updateBooking s.bookings bid
            (fun b0 => { b0 with status := .CANCELLED, cancellation_date := some t })
          booking_counter := s.booking_counter }) := by
  unfold cancel_booking
  rw [hb]
  simp [hem, hst]

/-! ## The reachable-state invariant -/

theorem bkRange_nodup (c : ℕ) : (bkRange c).Nodup :=
  (List.nodup_range' 1000 (c - 1000)).map bkId_injective

theorem bkRange_succ {c : ℕ} (hc : 1000 ≤ c) :
    bkRange (c + 1) = bkRange c ++ [bkId c] := by
  have h1 : c + 1 - 1000 = (c - 1000) + 1 := by omega
  have h2 : 1000 + 1 * (c - 1000) = c := by omega
  simp only [bkRange, h1, List.range'_concat, List.map_append, List.map_cons, List.map_nil, h2]

theorem Inv.ids {s : EngineState} (h : Inv s) :
    (flightsOf s.flights_db).map Flight.id = (flightsOf FLIGHTS_DB).map Flight.id := by
  have hc := congrArg (List.map (fun q : String × ℤ × String × String => q.1)) h.shape
  simpa [List.map_map, Function.comp, stripSeats] using hc

theorem Inv.idsNodup {s : EngineState} (h : Inv s) :
    ((flightsOf s.flights_db).map Flight.id).Nodup := by
  rw [h.ids]
  decide

theorem Inv.keysNodup {s : EngineState} (h : Inv s) :
    (s.bookings.map Prod.fst).Nodup := by
  rw [h.keys]
  exact bkRange_nodup _

theorem inv_seed : Inv seedState := by
  refine ⟨rfl, ?_, le_refl _, ?_⟩
  · simp [seedState, bkRange]
  · decide

theorem inv_book {s : EngineState} (h : Inv s) (fid : String) (p : ℤ) (c : Cabin)
    (nm em : String) (t : ℕ) : Inv (book_flight s fid p c nm em t).2 := by
  by_cases hem : validEmail em
  case neg =>
    rw [book_flight_invalidEmail s fid p c nm t (by simpa using hem)]
    exact h
  case pos =>
    cases hff : findFlight s.flights_db fid with
    | none =>
      rw [book_flight_notFound p c nm t hem hff]
      exact h
    | some rf =>
      obtain ⟨r, f₀⟩ := rf
      by_cases hseats : f₀.seats < p
      · rw [book_flight_insufficient c nm t hem hff hseats]
        exact h
      · rw [book_flight_success c nm t hem hff hseats]
        have hmap : flightsOf (decSeats s.flights_db fid p) =
            (flightsOf s.flights_db).map (decOne fid p) := by
          rw [flightsOf_decSeats, decSeatsIn_eq_map p h.idsNodup]
        refine ⟨?_, ?_, ?_, ?_⟩
        · dsimp only
          rw [hmap, List.map_map, ← h.shape]
          exact List.map_congr_left (fun f _ => stripSeats_decOne fid p f)
        · dsimp only
          rw [List.map_append, h.keys, bkRange_succ h.counter_ge]
          rfl
        · dsimp only
          have := h.counter_ge
          omega
        · intro g' hg'
          dsimp only at hg' ⊢
          have hg'' : g' ∈ (flightsOf s.flights_db).map (decOne fid p) := by
            rw [← hmap]
            exact hg'
          obtain ⟨g, hg, rfl⟩ := List.mem_map.1 hg''
          have hcons := h.conserve g hg
          rw [id_decOne, confirmedSum_append]
          have hsingle : confirmedSum [(bkId s.booking_counter, newBooking s fid r p c nm em t f₀)] g.id =
              contrib (newBooking s fid r p c nm em t f₀) g.id := by
            simp [confirmedSum]
          rw [hsingle]
          by_cases hid : g.id = fid
          · have hcontrib : contrib (newBooking s fid r p c nm em t f₀) g.id = p := by
              simp [contrib, newBooking, hid]
            have hseq : (decOne fid p g).seats = g.seats - p := by
              simp [decOne, hid]
            rw [hseq, hcontrib]
            omega
          · have hcontrib : contrib (newBooking s fid r p c nm em t f₀) g.id = 0 := by
              simp only [contrib, newBooking]
              rw [if_neg]
              rintro ⟨-, hfl⟩
              exact hid hfl.symm
            have hseq : (decOne fid p g).seats = g.seats := by
              simp [decOne, hid]
            rw [hseq, hcontrib]
            omega

theorem inv_cancel {s : EngineState} (h : Inv s) (bid em : String) (t : ℕ) :
    Inv (cancel_booking s bid em t).2 := by
  cases hb : lookupBooking s.bookings bid with
  | none =>
    rw [cancel_booking_notFound em t hb]
    exact h
  | some b =>
    by_cases hem : b.passenger_email = em
    · by_cases hst : b.status = .CANCELLED
      · rw [cancel_booking_already t hb hem hst]
        exact h
      · rw [cancel_booking_success t hb hem hst]
        have hconf : b.status = .CONFIRMED := by
          cases hs : b.status
          · rfl
          · exact absurd hs hst
        obtain ⟨l₁, l₂, hsplit, hl₁⟩ := lookupBooking_split hb
        have hl₂ : ∀ kb ∈ l₂, (kb.1 == bid) = false := by
          have hnd := h.keysNodup
          rw [hsplit] at hnd
          simp only [List.map_append, List.map_cons] at hnd
          have hnd2 := hnd.of_append_right
          have hnotin : bid ∉ l₂.map Prod.fst := (List.nodup_cons.1 hnd2).1
          intro kb hkb
          simp only [beq_eq_false_iff_ne, ne_eq]
          intro hkey
          exact hnotin (hkey ▸ List.mem_map_of_mem Prod.fst hkb)
        have hupd : updateBooking s.bookings bid
            (fun b0 => { b0 with status := .CANCELLED, cancellation_date := some t }) =
            l₁ ++ (bid, { b with status := .CANCELLED, cancellation_date := some t }) :: l₂ := by
          rw [hsplit, updateBooking_append, updateBooking_no_match hl₁]
          congr 1
          show ((bid, b) :: l₂).map _ = _
          simp only [List.map_cons]
          rw [if_pos (by simp)]
          congr 1
          exact @updateBooking_no_match l₂ bid
            (fun b0 => { b0 with status := .CANCELLED, cancellation_date := some t }) hl₂
        have hmap : flightsOf (incSeats s.flights_db b.flight_id b.passengers) =
            (flightsOf s.flights_db).map (incOne b.flight_id b.passengers) :=
          flightsOf_incSeats _ _ _
        refine ⟨?_, ?_, h.counter_ge, ?_⟩
        · dsimp only
          rw [hmap, List.map_map, ← h.shape]
          exact List.map_congr_left (fun f _ => stripSeats_incOne b.flight_id b.passengers f)
        · dsimp only
          rw [keys_updateBooking]
          exact h.keys
        · intro g' hg'
          dsimp only at hg' ⊢
          have hg'' : g' ∈ (flightsOf s.flights_db).map (incOne b.flight_id b.passengers) := by
            rw [← hmap]
            exact hg'
          obtain ⟨g, hg, rfl⟩ := List.mem_map.1 hg''
          have hcons := h.conserve g hg
          have hsum_old : confirmedSum s.bookings g.id =
              confirmedSum l₁ g.id + contrib b g.id + confirmedSum l₂ g.id := by
            rw [hsplit, confirmedSum_append, confirmedSum_cons]
            ring
          rw [id_incOne, hupd, confirmedSum_append, confirmedSum_cons]
          have hgone :
              contrib ({ b with status := BookingStatus.CANCELLED, cancellation_date := some t })
                g.id = 0 := by
            simp [contrib]
          rw [hgone]
          by_cases hid : g.id = b.flight_id
          · have hcontrib : contrib b g.id = b.passengers := by
              simp [contrib, hconf, hid]
            have hseq : (incOne b.flight_id b.passengers g).seats = g.seats + b.passengers := by
              simp [incOne, hid]
            rw [hseq]
            rw [hsum_old, hcontrib] at hcons
            omega
          · have hcontrib : contrib b g.id = 0 := by
              simp only [contrib]
              rw [if_neg]
              rintro ⟨-, hfl⟩
              exact hid hfl.symm
            have hseq : (incOne b.flight_id b.passengers g).seats = g.seats := by
              have : ¬(g.id == b.flight_id) = true := by simpa using hid
              simp [incOne, this]
            rw [hseq]
            rw [hsum_old, hcontrib] at hcons
            omega
    · rw [cancel_booking_mismatch t hb hem]
      exact h

theorem inv_step {s : EngineState} (h : Inv s) (op : Op) : Inv (FlightBooking.step s op) := by
  cases op with
  | search o d dt =>
    show Inv (search_flights s o d dt).2
    rw [search_flights_state]
    exact h
  | check fid p =>
    show Inv (check_flight_availability s fid p).2
    rw [check_flight_availability_state]
    exact h
  | book fid p c nm em t => exact inv_book h fid p c nm em t
  | cancel bid em t => exact inv_cancel h bid em t
  | view bid =>
    show Inv (view_booking s bid).2
    rw [view_booking_state]
    exact h

theorem inv_foldl {s : EngineState} (h : Inv s) (ops : List Op) :
    Inv (ops.foldl FlightBooking.step s) := by
  induction ops generalizing s with
  | nil => exact h
  | cons op rest ih => exact ih (inv_step h op)

theorem inv_run (ops : List Op) : Inv (run ops) := inv_foldl inv_seed ops

/-! ## The nonnegative-passenger layer

`book_flight` does not validate the passenger count, so seat bounds hold
only for traces whose book operations request nonnegative counts. -/

theorem invN_seed : InvN seedState := by
  constructor
  · intro kb hkb
    simp [seedState] at hkb
  · decide

theorem invN_step {s : EngineState} (h : Inv s) (hn : InvN s) (op : Op)
    (hop : OpNonneg op) : InvN (FlightBooking.step s op) := by
  cases op with
  | search o d dt =>
    show InvN (search_flights s o d dt).2
    rw [search_flights_state]
    exact hn
  | check fid p =>
    show InvN (check_flight_availability s fid p).2
    rw [check_flight_availability_state]
    exact hn
  | view bid =>
    show InvN (view_booking s bid).2
    rw [view_booking_state]
    exact hn
  | book fid p c nm em t =>
    show InvN (book_flight s fid p c nm em t).2
    have hp : 0 ≤ p := hop
    by_cases hem : validEmail em
    case neg =>
      rw [book_flight_invalidEmail s fid p c nm t (by simpa using hem)]
      exact hn
    case pos =>
      cases hff : findFlight s.flights_db fid with
      | none =>
        rw [book_flight_notFound p c nm t hem hff]
        exact hn
      | some rf =>
        obtain ⟨r, f₀⟩ := rf
        by_cases hseats : f₀.seats < p
        · rw [book_flight_insufficient c nm t hem hff hseats]
          exact hn
        · rw [book_flight_success c nm t hem hff hseats]
          have hmap : flightsOf (decSeats s.flights_db fid p) =
              (flightsOf s.flights_db).map (decOne fid p) := by
            rw [flightsOf_decSeats, decSeatsIn_eq_map p h.idsNodup]
          constructor
          · intro kb hkb
            dsimp only at hkb
            rcases List.mem_append.1 hkb with hkb | hkb
            · exact hn.nonneg_pass kb hkb
            · have : kb = (bkId s.booking_counter, newBooking s fid r p c nm em t f₀) := by
                simpa using hkb
              rw [this]
              exact hp
          · intro g' hg'
            dsimp only at hg'
            rw [hmap] at hg'
            obtain ⟨g, hg, rfl⟩ := List.mem_map.1 hg'
            by_cases hid : g.id = fid
            · have hmem := findFlight_mem hff
              have hgf : g = f₀ := by
                apply List.inj_on_of_nodup_map h.idsNodup hg hmem.1
                rw [hid, hmem.2]
              have : (decOne fid p g).seats = g.seats - p := by simp [decOne, hid]
              rw [this, hgf]
              omega
            · have : (decOne fid p g).seats = g.seats := by simp [decOne, hid]
              rw [this]
              exact hn.nonneg_seats g hg
  | cancel bid em t =>
    show InvN (cancel_booking s bid em t).2
    cases hb : lookupBooking s.bookings bid with
    | none =>
      rw [cancel_booking_notFound em t hb]
      exact hn
    | some b =>
      by_cases hem : b.passenger_email = em
      · by_cases hst : b.status = .CANCELLED
        · rw [cancel_booking_already t hb hem hst]
          exact hn
        · rw [cancel_booking_success t hb hem hst]
          have hbp : 0 ≤ b.passengers := by
            simp only [lookupBooking, Option.map_eq_some'] at hb
            obtain ⟨kb0, hfind, hsnd⟩ := hb
            have := hn.nonneg_pass kb0 (List.mem_of_find?_eq_some hfind)
            rw [hsnd] at this
            exact this
          constructor
          · intro kb hkb
            dsimp only at hkb
            simp only [updateBooking] at hkb
            obtain ⟨kb0, hkb0, rfl⟩ := List.mem_map.1 hkb
            have h0 := hn.nonneg_pass kb0 hkb0
            by_cases hkey : kb0.1 = bid <;> simp [hkey, h0]
          · intro g' hg'
            dsimp only at hg'
            rw [flightsOf_incSeats] at hg'
            obtain ⟨g, hg, rfl⟩ := List.mem_map.1 hg'
            have h0 := hn.nonneg_seats g hg
            by_cases hid : g.id = b.flight_id
            · have : (incOne b.flight_id b.passengers g).seats = g.seats + b.passengers := by
                simp [incOne, hid]
              rw [this]
              omega
            · have : (incOne b.flight_id b.passengers g).seats = g.seats := by
                have hne : ¬(g.id == b.flight_id) = true := by simpa using hid
                simp [incOne, hne]
              rw [this]
              exact h0
      · rw [cancel_booking_mismatch t hb hem]
        exact hn

theorem invN_foldl {s : EngineState} (h : Inv s) (hn : InvN s) (ops : List Op)
    (hops : ∀ op ∈ ops, OpNonneg op) : InvN (ops.foldl FlightBooking.step s) := by
  induction ops generalizing s with
  | nil => exact hn
  | cons op rest ih =>
    exact ih (inv_step h op) (invN_step h hn op (hops op (List.mem_cons_self op rest)))
      (fun o ho => hops o (List.mem_cons_of_mem op ho))

theorem invN_run (ops : List Op) (hops : ∀ op ∈ ops, OpNonneg op) : InvN (run ops) :=
  invN_foldl inv_seed invN_seed ops hops

theorem confirmedSum_nonneg {bs : List (String × Booking)} {fid : String}
    (hn : ∀ kb ∈ bs, 0 ≤ (Prod.snd kb).passengers) : 0 ≤ confirmedSum bs fid := by
  apply List.sum_nonneg
  intro x hx
  obtain ⟨kb, hkb, rfl⟩ := List.mem_map.1 hx
  by_cases hc : kb.2.status = BookingStatus.CONFIRMED ∧ kb.2.flight_id = fid
  · simpa [contrib, hc] using hn kb hkb
  · simp [contrib, hc]

/-! ## Further helper lemmas for the claim theorems -/

theorem validEmail_iff {em : String} :
    validEmail em = true ↔ '@' ∈ em.data ∧ '.' ∈ em.data := by
  simp [validEmail]

theorem seatsOf_map_snd (s : EngineState) {fid : String} {f : Flight}
    (h : (findFlight s.flights_db fid).map Prod.snd = some f) : seatsOf s fid = f.seats := by
  unfold seatsOf
  cases hh : findFlight s.flights_db fid with
  | none => rw [hh] at h; cases h
  | some rf =>
    rw [hh] at h
    simp only [Option.map_some', Option.some.injEq] at h
    simp [h]

theorem seatsOf_eq_of (s : EngineState) (db : List (String × List Flight))
    (hdb : s.flights_db = db) {fid : String} {f : Flight}
    (h : (findFlight db fid).map Prod.snd = some f) : seatsOf s fid = f.seats :=
  seatsOf_map_snd s (by rw [hdb]; exact h)

theorem findFlight_decSeats (db : List (String × List Flight)) (fid : String) (p : ℤ) :
    (findFlight (decSeats db fid p) fid).map Prod.snd =
      ((findFlight db fid).map Prod.snd).map (fun f => { f with seats := f.seats - p }) := by
  rw [findFlight_flatten, flightsOf_decSeats, find?_decSeatsIn, ← findFlight_flatten]

theorem findFlight_incSeats_snd (db : List (String × List Flight)) (fid : String) (p : ℤ) :
    (findFlight (incSeats db fid p) fid).map Prod.snd =
      ((findFlight db fid).map Prod.snd).map (incOne fid p) := by
  rw [findFlight_flatten, flightsOf_incSeats, List.find?_map]
  have hp : ((fun f : Flight => f.id == fid) ∘ incOne fid p) = fun f : Flight => f.id == fid := by
    funext f
    simp [Function.comp, id_incOne]
  rw [hp, ← findFlight_flatten]

theorem lookupBooking_mem {bs : List (String × Booking)} {bid : String} {b : Booking}
    (h : lookupBooking bs bid = some b) : ∃ kb ∈ bs, kb.1 = bid ∧ kb.2 = b := by
  simp only [lookupBooking, Option.map_eq_some'] at h
  obtain ⟨kb0, hfind, hsnd⟩ := h
  exact ⟨kb0, List.mem_of_find?_eq_some hfind, by simpa using List.find?_some hfind, hsnd⟩

theorem check_avail_invalid {s : EngineState} {fid : String} {p : ℤ}
    (hp : p < 1 ∨ 9 < p) :
    check_flight_availability s fid p = (.invalidPassengerCount, s) := by
  unfold check_flight_availability
  rw [if_pos hp]

theorem check_avail_notFound {s : EngineState} {fid : String} {p : ℤ}
    (hp : ¬(p < 1 ∨ 9 < p)) (hff : findFlight s.flights_db fid = none) :
    check_flight_availability s fid p = (.flightNotFound, s) := by
  unfold check_flight_availability
  rw [if_neg hp, hff]

theorem check_avail_found {s : EngineState} {fid r : String} {f : Flight} {p : ℤ}
    (hp : ¬(p < 1 ∨ 9 < p)) (hff : findFlight s.flights_db fid = some (r, f)) :
    check_flight_availability s fid p =
      (.ok fid r p f.seats (decide (p ≤ f.seats)) f.price
        (if p ≤ f.seats then some (f.price * p) else none) f.departure f.arrival, s) := by
  unfold check_flight_availability
  rw [if_neg hp, hff]
  by_cases hb : p ≤ f.seats <;> simp [hb]

theorem search_invalidRoute {s : EngineState} {o d : String} (dt : String) (he : o = d) :
    search_flights s o d dt = (.invalidRoute, s) := by
  unfold search_flights
  rw [if_pos (by simpa using he)]

theorem search_routeNotFound {s : EngineState} {o d : String} (dt : String) (he : o ≠ d)
    (hr : lookupRoute s.flights_db (o ++ "-" ++ d) = []) :
    search_flights s o d dt = (.routeNotFound o d, s) := by
  unfold search_flights
  rw [if_neg (by simpa using he)]
  simp [hr]

theorem search_found {s : EngineState} {o d : String} (dt : String) (he : o ≠ d)
    (hr : lookupRoute s.flights_db (o ++ "-" ++ d) ≠ []) :
    search_flights s o d dt =
      (.ok o d dt (lookupRoute s.flights_db (o ++ "-" ++ d))
        (lookupRoute s.flights_db (o ++ "-" ++ d)).length, s) := by
  unfold search_flights
  rw [if_neg (by simpa using he)]
  simp [hr]

/-! ## Claim C6: search error chain and read-only behaviour -/

/-- C6: `search(origin, destination, date)` returns `InvalidRoute` exactly when
origin equals destination; otherwise `RouteNotFound` exactly when the route
key has no flights; otherwise the stored flight list in insertion order with
the date echoed back; the flight list never depends on the date; and the call
never modifies any state. -/
theorem C6_search_spec (s : EngineState) (o d dt : String) :
    ((search_flights s o d dt).1 = .invalidRoute ↔ o = d) ∧
    (o ≠ d →
      ((search_flights s o d dt).1 = .routeNotFound o d ↔
        lookupRoute s.flights_db (o ++ "-" ++ d) = [])) ∧
    (o ≠ d → ∀ fs, lookupRoute s.flights_db (o ++ "-" ++ d) = fs → fs ≠ [] →
      (search_flights s o d dt).1 = .ok o d dt fs fs.length) ∧
    (∀ dt', searchResultFlights (search_flights s o d dt).1 =
      searchResultFlights (search_flights s o d dt').1) ∧
    (search_flights s o d dt).2 = s := by
  by_cases he : o = d
  · rw [search_invalidRoute dt he]
    refine ⟨by simp [he], ?_, ?_, ?_, rfl⟩
    · intro hne
      exact absurd he hne
    · intro hne
      exact absurd he hne
    · intro dt'
      rw [search_invalidRoute dt' he]
  · by_cases hr : lookupRoute s.flights_db (o ++ "-" ++ d) = []
    · rw [search_routeNotFound dt he hr]
      refine ⟨by simp [he], fun _ => by simp [hr], ?_, ?_, rfl⟩
      · intro _ fs hfs hne
        rw [hr] at hfs
        exact absurd hfs.symm hne
      · intro dt'
        rw [search_routeNotFound dt' he hr]
    · rw [search_found dt he hr]
      refine ⟨by simp [he], fun _ => by simp [hr], ?_, ?_, rfl⟩
      · intro _ fs hfs _
        subst hfs
        rfl
      · intro dt'
        rw [search_found dt' he hr]
        rfl

/-! ## Claim C7: availability check -/

/-- C7: `checkAvailability(flightId, passengers)` rejects passenger counts
outside `[1, 9]` with `InvalidPassengerCount`, otherwise reports
`FlightNotFound` exactly when the id is unknown, otherwise reports
`can_book = (seats >= passengers)` with a base-rate quote
`price * passengers` exactly when bookable, and never mutates state. -/
theorem C7_availability_spec (s : EngineState) (fid : String) (p : ℤ) :
    ((check_flight_availability s fid p).1 = .invalidPassengerCount ↔ p < 1 ∨ 9 < p) ∧
    (1 ≤ p → p ≤ 9 →
      ((check_flight_availability s fid p).1 = .flightNotFound ↔
        ∀ f ∈ flightsOf s.flights_db, f.id ≠ fid)) ∧
    (1 ≤ p → p ≤ 9 → ∀ r f, findFlight s.flights_db fid = some (r, f) →
      (check_flight_availability s fid p).1 =
        .ok fid r p f.seats (decide (p ≤ f.seats)) f.price
          (if p ≤ f.seats then some (f.price * p) else none) f.departure f.arrival) ∧
    (check_flight_availability s fid p).2 = s := by
  by_cases hp : p < 1 ∨ 9 < p
  · rw [check_avail_invalid hp]
    refine ⟨by simpa using hp, ?_, ?_, rfl⟩
    · intro h1 h2
      exact absurd hp (by omega)
    · intro h1 h2
      exact absurd hp (by omega)
  · cases hff : findFlight s.flights_db fid with
    | none =>
      rw [check_avail_notFound hp hff]
      refine ⟨by simpa using hp, ?_, ?_, rfl⟩
      · intro _ _
        simpa using findFlight_eq_none_iff.1 hff
      · intro _ _ r f h'
        exact Option.noConfusion h'
    | some rf =>
      obtain ⟨r0, f0⟩ := rf
      rw [check_avail_found hp hff]
      have hmem := findFlight_mem hff
      refine ⟨by simpa using hp, ?_, ?_, rfl⟩
      · intro _ _
        refine iff_of_false (by simp) ?_
        intro hall
        exact hall f0 hmem.1 hmem.2
      · intro _ _ r f h'
        have : r0 = r ∧ f0 = f := by simpa using h'
        obtain ⟨rfl, rfl⟩ := this
        rfl

/-! ## Claim C3: book error chain and all-or-nothing behaviour -/

/-- C3: `book` returns `InvalidEmail` exactly when the email lacks `"@"` or
`"."`; otherwise `FlightNotFound` exactly when no flight carries the id;
otherwise `InsufficientSeats` — reporting the requested and available
counts — exactly when seats < passengers; and on every error outcome the
whole engine state is unchanged. -/
theorem C3_book_errors (s : EngineState) (fid : String) (p : ℤ) (c : Cabin)
    (nm em : String) (t : ℕ) :
    ((book_flight s fid p c nm em t).1 = .invalidEmail ↔
      ¬('@' ∈ em.data ∧ '.' ∈ em.data)) ∧
    ((book_flight s fid p c nm em t).1 = .flightNotFound ↔
      ('@' ∈ em.data ∧ '.' ∈ em.data) ∧ ∀ f ∈ flightsOf s.flights_db, f.id ≠ fid) ∧
    (∀ r f, findFlight s.flights_db fid = some (r, f) →
      ((book_flight s fid p c nm em t).1 = .insufficientSeats p f.seats ↔
        ('@' ∈ em.data ∧ '.' ∈ em.data) ∧ f.seats < p)) ∧
    (((book_flight s fid p c nm em t).1 = .invalidEmail ∨
      (book_flight s fid p c nm em t).1 = .flightNotFound ∨
      ∃ req avail, (book_flight s fid p c nm em t).1 = .insufficientSeats req avail) →
      (book_flight s fid p c nm em t).2 = s) := by
  by_cases hem : validEmail em
  · have hemiff : '@' ∈ em.data ∧ '.' ∈ em.data := validEmail_iff.1 hem
    cases hff : findFlight s.flights_db fid with
    | none =>
      rw [book_flight_notFound p c nm t hem hff]
      refine ⟨by simp [hemiff], ?_, ?_, fun _ => rfl⟩
      · exact iff_of_true rfl ⟨hemiff, findFlight_eq_none_iff.1 hff⟩
      · intro r f h'
        exact Option.noConfusion h'
    | some rf =>
      obtain ⟨r0, f0⟩ := rf
      have hf0 := findFlight_mem hff
      by_cases hseats : f0.seats < p
      · rw [book_flight_insufficient c nm t hem hff hseats]
        refine ⟨by simp [hemiff], ?_, ?_, fun _ => rfl⟩
        · exact iff_of_false (by simp) (fun hrhs => hrhs.2 f0 hf0.1 hf0.2)
        · intro r f h'
          have : r0 = r ∧ f0 = f := by simpa using h'
          obtain ⟨rfl, rfl⟩ := this
          simp [hemiff, hseats]
      · rw [book_flight_success c nm t hem hff hseats]
        refine ⟨by simp [hemiff], ?_, ?_, ?_⟩
        · exact iff_of_false (by simp) (fun hrhs => hrhs.2 f0 hf0.1 hf0.2)
        · intro r f h'
          have : r0 = r ∧ f0 = f := by simpa using h'
          obtain ⟨rfl, rfl⟩ := this
          exact iff_of_false (by simp) (fun hrhs => hseats hrhs.2)
        · rintro (habs | habs | ⟨req, avail, habs⟩) <;> simp at habs
  · have hem' : validEmail em = false := by simpa using hem
    have hemiff : ¬('@' ∈ em.data ∧ '.' ∈ em.data) := fun hc => hem (validEmail_iff.2 hc)
    rw [book_flight_invalidEmail s fid p c nm t hem']
    refine ⟨by simp [hemiff], by simp [hemiff], ?_, fun _ => rfl⟩
    intro r f h'
    exact iff_of_false (by simp) (fun hrhs => hemiff hrhs.1)

/-! ## Claim C5: cancel error chain and all-or-nothing behaviour -/

/-- C5: `cancel` returns `BookingNotFound` exactly when the id is not in the
ledger; otherwise `EmailMismatch` exactly when the supplied email differs
(case-sensitively) from the stored one; otherwise `AlreadyCancelled` exactly
when the booking is already CANCELLED; and on every error outcome the whole
engine state is unchanged. -/
theorem C5_cancel_errors (s : EngineState) (bid em : String) (t : ℕ) :
    ((cancel_booking s bid em t).1 = .bookingNotFound ↔ ∀ kb ∈ s.bookings, kb.1 ≠ bid) ∧
    (∀ b, lookupBooking s.bookings bid = some b →
      ((cancel_booking s bid em t).1 = .emailMismatch ↔ b.passenger_email ≠ em)) ∧
    (∀ b, lookupBooking s.bookings bid = some b → b.passenger_email = em →
      ((cancel_booking s bid em t).1 = .alreadyCancelled ↔ b.status = .CANCELLED)) ∧
    (((cancel_booking s bid em t).1 = .bookingNotFound ∨
      (cancel_booking s bid em t).1 = .emailMismatch ∨
      (cancel_booking s bid em t).1 = .alreadyCancelled) →
      (cancel_booking s bid em t).2 = s) := by
  cases hb : lookupBooking s.bookings bid with
  | none =>
    rw [cancel_booking_notFound em t hb]
    refine ⟨iff_of_true rfl (lookupBooking_eq_none_iff.1 hb), ?_, ?_, fun _ => rfl⟩
    · intro b h'
      exact Option.noConfusion h'
    · intro b h'
      exact Option.noConfusion h'
  | some b0 =>
    obtain ⟨kb0, hkb0mem, hkb0key, hkb0val⟩ := lookupBooking_mem hb
    have hnotall : ¬∀ kb ∈ s.bookings, kb.1 ≠ bid := fun hall => hall kb0 hkb0mem hkb0key
    by_cases hem : b0.passenger_email = em
    · by_cases hst : b0.status = .CANCELLED
      · rw [cancel_booking_already t hb hem hst]
        refine ⟨iff_of_false (by simp) hnotall, ?_, ?_, fun _ => rfl⟩
        · intro b h'
          have hbb : b0 = b := by simpa using h'
          subst hbb
          exact iff_of_false (by simp) (fun hne => hne hem)
        · intro b h' _
          have hbb : b0 = b := by simpa using h'
          subst hbb
          simp [hst]
      · rw [cancel_booking_success t hb hem hst]
        refine ⟨iff_of_false (by simp) hnotall, ?_, ?_, ?_⟩
        · intro b h'
          have hbb : b0 = b := by simpa using h'
          subst hbb
          exact iff_of_false (by simp) (fun hne => hne hem)
        · intro b h' _
          have hbb : b0 = b := by simpa using h'
          subst hbb
          exact iff_of_false (by simp) hst
        · rintro (habs | habs | habs) <;> simp at habs
    · rw [cancel_booking_mismatch t hb hem]
      refine ⟨iff_of_false (by simp) hnotall, ?_, ?_, fun _ => rfl⟩
      · intro b h'
        have hbb : b0 = b := by simpa using h'
        subst hbb
        simp [hem]
      · intro b h' hem'
        have hbb : b0 = b := by simpa using h'
        subst hbb
        exact absurd hem' hem

/-! ## Scenario arithmetic -/

theorem scBooking_total : scBooking.total_price = 6000 := by
  norm_num [scBooking, newBooking, scFlight, Cabin.multiplier, round2, roundHalfEven]

theorem round2_refund : round2 ((6000 : ℚ) * (9 / 10)) = 5400 := by
  norm_num [round2, roundHalfEven]

theorem round2_fee : round2 ((6000 : ℚ) * (1 / 10)) = 600 := by
  norm_num [round2, roundHalfEven]

/-! ## Claim C2: the successful booking path -/

/-- C2: with a well-formed email, an existing flight and enough seats, `book`
succeeds and in one step decrements that flight's seats by the passenger
count, allocates the booking id `"BK" ++ counter` (incrementing the counter),
and appends to the ledger a CONFIRMED booking whose total price is
`price * passengers * multiplier` rounded to two decimals, where the
multiplier is 1 for economy, 2.5 for business and 4 for first. -/
theorem C2_book_success (s : EngineState) (fid : String) (p : ℤ) (c : Cabin)
    (nm em : String) (t : ℕ) (r : String) (f : Flight)
    (hem : validEmail em = true)
    (hff : findFlight s.flights_db fid = some (r, f))
    (hseats : p ≤ f.seats) :
    ∃ b : Booking,
      (book_flight s fid p c nm em t).1 = .ok b ∧
      b.booking_id = "BK" ++ toString s.booking_counter ∧
      b.status = .CONFIRMED ∧
      b.flight_id = fid ∧
      b.passengers = p ∧
      b.total_price = round2 ((f.price : ℚ) * (p : ℚ) * c.multiplier) ∧
      Cabin.economy.multiplier = 1 ∧ Cabin.business.multiplier = 5 / 2 ∧
      Cabin.first.multiplier = 4 ∧
      (book_flight s fid p c nm em t).2.booking_counter = s.booking_counter + 1 ∧
      (book_flight s fid p c nm em t).2.bookings = s.bookings ++ [(b.booking_id, b)] ∧
      seatsOf (book_flight s fid p c nm em t).2 fid = f.seats - p := by
  have hseats' : ¬f.seats < p := not_lt.2 hseats
  rw [book_flight_success c nm t hem hff hseats']
  refine ⟨newBooking s fid r p c nm em t f, rfl, rfl, rfl, rfl, rfl, rfl, rfl, rfl, rfl,
    rfl, rfl, ?_⟩
  have h1 : (findFlight (decSeats s.flights_db fid p) fid).map Prod.snd =
      some { f with seats := f.seats - p } := by
    rw [findFlight_decSeats, hff]
    rfl
  refine seatsOf_eq_of _ _ ?_ h1
  rfl

/-! ## Claim C4: the successful cancellation path -/

/-- C4: cancelling an existing CONFIRMED booking with the matching email
succeeds, restores the flight's seats by the booking's passenger count,
flips the status to CANCELLED while stamping the cancellation date, and
returns a 90% refund and a 10% fee of the stored total price (both rounded
to two decimals) with the stored total price itself unmodified. -/
theorem C4_cancel_success (s : EngineState) (bid em : String) (t : ℕ) (b : Booking)
    (hb : lookupBooking s.bookings bid = some b)
    (hem : b.passenger_email = em)
    (hst : b.status = .CONFIRMED) :
    (cancel_booking s bid em t).1 =
      .ok bid (round2 (b.total_price * (9 / 10))) b.total_price
        (round2 (b.total_price * (1 / 10))) ∧
    lookupBooking (cancel_booking s bid em t).2.bookings bid =
      some { b with status := .CANCELLED, cancellation_date := some t } ∧
    (∀ r f, findFlight s.flights_db b.flight_id = some (r, f) →
      seatsOf (cancel_booking s bid em t).2 b.flight_id =
        seatsOf s b.flight_id + b.passengers) ∧
    ({ b with status := BookingStatus.CANCELLED, cancellation_date := some t } : Booking).total_price = b.total_price := by
  have hst' : b.status ≠ .CANCELLED := by simp [hst]
  rw [cancel_booking_success t hb hem hst']
  refine ⟨rfl, ?_, ?_, rfl⟩
  · dsimp only
    rw [lookupBooking_updateBooking, hb]
    simp
  · intro r f hf
    have hmem := findFlight_mem hf
    have h1 : (findFlight (incSeats s.flights_db b.flight_id b.passengers) b.flight_id).map
        Prod.snd = some (incOne b.flight_id b.passengers f) := by
      rw [findFlight_incSeats_snd, hf]
      rfl
    have h2 : seatsOf s b.flight_id = f.seats := by
      apply seatsOf_map_snd
      rw [hf]
      rfl
    rw [h2]
    refine Eq.trans (seatsOf_eq_of _ _ ?_ h1) ?_
    · rfl
    · simp [incOne, hmem.2]

/-! ## Claim C1: seat conservation and seat bounds -/

/-- C1 counterexample: the claim fails as stated because `book_flight` never
validates the passenger count, so booking `-1` passengers pushes the seat
count of `JL005` from 23 to 24, above its initial capacity. -/
theorem C1_counterexample :
    ¬∀ (ops : List Op), ∀ f ∈ flightsOf (run ops).flights_db,
        f.seats = initialSeats f.id - confirmedSum (run ops).bookings f.id ∧
        confirmedSum (run ops).bookings f.id ≤ initialSeats f.id ∧
        0 ≤ f.seats ∧ f.seats ≤ initialSeats f.id := by
  intro hclaim
  have h := hclaim [Op.book "JL005" (-1) .economy "A" "a@b.c" 0]
    { id := "JL005", price := 1200, departure := "13:00", arrival := "16:00+1", seats := 24 }
    (by decide)
  have h4 := h.2.2.2
  revert h4
  decide

/-- C1 (amended): for every operation sequence whose book calls all pass a
nonnegative passenger count, every flight's seat count equals its initial
seats minus the confirmed-passenger total, that total never exceeds the
initial capacity, and the seat count stays within `[0, initial seats]`. -/
theorem C1_seat_invariants (ops : List Op) (hops : ∀ op ∈ ops, OpNonneg op) :
    ∀ f ∈ flightsOf (run ops).flights_db,
      f.seats = initialSeats f.id - confirmedSum (run ops).bookings f.id ∧
      confirmedSum (run ops).bookings f.id ≤ initialSeats f.id ∧
      0 ≤ f.seats ∧ f.seats ≤ initialSeats f.id := by
  intro f hf
  have h := inv_run ops
  have hn := invN_run ops hops
  have hc := h.conserve f hf
  have hs0 := hn.nonneg_seats f hf
  have hsum0 : 0 ≤ confirmedSum (run ops).bookings f.id :=
    confirmedSum_nonneg hn.nonneg_pass
  exact ⟨hc, by omega, hs0, by omega⟩

/-! ## Claim C8: monotonic, never-reused booking ids -/

theorem step_keys (s : EngineState) (op : Op) :
    ∃ tail, (FlightBooking.step s op).bookings.map Prod.fst =
      s.bookings.map Prod.fst ++ tail := by
  cases op with
  | search o d dt =>
    refine ⟨[], ?_⟩
    show (search_flights s o d dt).2.bookings.map Prod.fst = _
    rw [search_flights_state, List.append_nil]
  | check fid p =>
    refine ⟨[], ?_⟩
    show (check_flight_availability s fid p).2.bookings.map Prod.fst = _
    rw [check_flight_availability_state, List.append_nil]
  | view bid =>
    refine ⟨[], ?_⟩
    show (view_booking s bid).2.bookings.map Prod.fst = _
    rw [view_booking_state, List.append_nil]
  | book fid p c nm em t =>
    show ∃ tail, (book_flight s fid p c nm em t).2.bookings.map Prod.fst = _
    by_cases hem : validEmail em
    · cases hff : findFlight s.flights_db fid with
      | none =>
        exact ⟨[], by rw [book_flight_notFound p c nm t hem hff, List.append_nil]⟩
      | some rf =>
        obtain ⟨r, f⟩ := rf
        by_cases hseats : f.seats < p
        · exact ⟨[], by rw [book_flight_insufficient c nm t hem hff hseats, List.append_nil]⟩
        · refine ⟨[bkId s.booking_counter], ?_⟩
          rw [book_flight_success c nm t hem hff hseats]
          dsimp only
          rw [List.map_append]
          rfl
    · exact ⟨[], by
        rw [book_flight_invalidEmail s fid p c nm t (by simpa using hem), List.append_nil]⟩
  | cancel bid em t =>
    show ∃ tail, (cancel_booking s bid em t).2.bookings.map Prod.fst = _
    cases hb : lookupBooking s.bookings bid with
    | none => exact ⟨[], by rw [cancel_booking_notFound em t hb, List.append_nil]⟩
    | some b =>
      by_cases hem : b.passenger_email = em
      · by_cases hst : b.status = .CANCELLED
        · exact ⟨[], by rw [cancel_booking_already t hb hem hst, List.append_nil]⟩
        · refine ⟨[], ?_⟩
          rw [cancel_booking_success t hb hem hst, List.append_nil]
          dsimp only
          rw [keys_updateBooking]
      · exact ⟨[], by rw [cancel_booking_mismatch t hb hem, List.append_nil]⟩

/-- C8: in every reachable state the ledger keys are exactly the ids
`BK1000 .. BK(counter-1)` in strictly increasing allocation order
(`bkRange`), no id ever occurs twice, and every further operation only ever
appends to the key list (entries are never removed). -/
theorem C8_booking_ids (ops : List Op) :
    (run ops).bookings.map Prod.fst = bkRange (run ops).booking_counter ∧
    ((run ops).bookings.map Prod.fst).Nodup ∧
    ∀ op, ∃ tail, (FlightBooking.step (run ops) op).bookings.map Prod.fst =
      (run ops).bookings.map Prod.fst ++ tail :=
  ⟨(inv_run ops).keys, (inv_run ops).keysNodup, fun op => step_keys (run ops) op⟩

/-! ## Claim C9: the passenger range of stored bookings -/

/-- C9 counterexample: `book_flight` never checks the `[1, 9]` passenger
range, so booking flight `BA001` (45 seats) for 45 passengers succeeds and
stores a booking whose passenger count is far outside the claimed range. -/
theorem C9_counterexample :
    ¬∀ (ops : List Op), ∀ kb ∈ (run ops).bookings,
        1 ≤ (Prod.snd kb).passengers ∧ (Prod.snd kb).passengers ≤ 9 := by
  intro hclaim
  have hem : validEmail "a@b.c" = true := by decide
  have hff : findFlight seedState.flights_db "BA001" =
      some ("NYC-LON",
        { id := "BA001", price := 850, departure := "08:00", arrival := "20:00", seats := 45 }) := by
    decide
  have hseats : ¬(45 : ℤ) < (45 : ℤ) := by decide
  have hres := book_flight_success .economy "A" 0 hem hff hseats
  have hkb : (bkId seedState.booking_counter,
      newBooking seedState "BA001" "NYC-LON" 45 .economy "A" "a@b.c" 0
        { id := "BA001", price := 850, departure := "08:00", arrival := "20:00", seats := 45 }) ∈
      (run [Op.book "BA001" 45 .economy "A" "a@b.c" 0]).bookings := by
    show _ ∈ (book_flight seedState "BA001" 45 .economy "A" "a@b.c" 0).2.bookings
    rw [hres]
    simp
  have h2 := (hclaim [Op.book "BA001" 45 .economy "A" "a@b.c" 0] _ hkb).2
  norm_num [newBooking] at h2

/-- C9 (amended): whenever `book` succeeds it stores exactly the requested
passenger count, and the only constraint it enforces is that the count does
not exceed the flight's currently available seats; the `[1, 9]` range is not
checked by `book` (only `checkAvailability` validates it). -/
theorem C9_passengers_bound (s : EngineState) (fid : String) (p : ℤ) (c : Cabin)
    (nm em : String) (t : ℕ) (b : Booking) (s' : EngineState)
    (h : book_flight s fid p c nm em t = (.ok b, s')) :
    b.passengers = p ∧
    ∃ r f, findFlight s.flights_db fid = some (r, f) ∧ p ≤ f.seats ∧
      s'.bookings = s.bookings ++ [(b.booking_id, b)] := by
  by_cases hem : validEmail em
  · cases hff : findFlight s.flights_db fid with
    | none =>
      rw [book_flight_notFound p c nm t hem hff] at h
      simp at h
    | some rf =>
      obtain ⟨r0, f0⟩ := rf
      by_cases hseats : f0.seats < p
      · rw [book_flight_insufficient c nm t hem hff hseats] at h
        simp at h
      · rw [book_flight_success c nm t hem hff hseats] at h
        simp only [Prod.mk.injEq, BookResult.ok.injEq] at h
        obtain ⟨hb, hs⟩ := h
        refine ⟨?_, r0, f0, rfl, not_lt.1 hseats, ?_⟩
        · rw [← hb]
          rfl
        · rw [← hs, ← hb]
          rfl
  · rw [book_flight_invalidEmail s fid p c nm t (by simpa using hem)] at h
    simp at h

/-! ## Claim C10: price freezing -/

/-- C10: a booking's total price is fixed at booking time: an out-of-band
change of the referenced flight's base price leaves every ledger entry (and
hence its stored total price) untouched, and no engine operation ever
modifies the `total_price` of an existing booking — cancellation only flips
the status and stamps the cancellation date. -/
theorem C10_price_freezing :
    (∀ (s : EngineState) (fid : String) (np : ℤ) (bid : String),
      lookupBooking (setPrice s fid np).bookings bid = lookupBooking s.bookings bid) ∧
    (∀ (s : EngineState) (op : Op) (bid : String) (b : Booking),
      lookupBooking s.bookings bid = some b →
      ∃ b', lookupBooking (FlightBooking.step s op).bookings bid = some b' ∧
        b'.total_price = b.total_price) := by
  constructor
  · intro s fid np bid
    rfl
  · intro s op bid b hb
    cases op with
    | search o d dt =>
      refine ⟨b, ?_, rfl⟩
      show lookupBooking (search_flights s o d dt).2.bookings bid = some b
      rw [search_flights_state]
      exact hb
    | check fid p =>
      refine ⟨b, ?_, rfl⟩
      show lookupBooking (check_flight_availability s fid p).2.bookings bid = some b
      rw [check_flight_availability_state]
      exact hb
    | view bid0 =>
      refine ⟨b, ?_, rfl⟩
      show lookupBooking (view_booking s bid0).2.bookings bid = some b
      rw [view_booking_state]
      exact hb
    | book fid p c nm em t =>
      show ∃ b', lookupBooking (book_flight s fid p c nm em t).2.bookings bid = some b' ∧ _
      by_cases hem : validEmail em
      · cases hff : findFlight s.flights_db fid with
        | none =>
          exact ⟨b, by rw [book_flight_notFound p c nm t hem hff]; exact hb, rfl⟩
        | some rf =>
          obtain ⟨r, f⟩ := rf
          by_cases hseats : f.seats < p
          · exact ⟨b, by rw [book_flight_insufficient c nm t hem hff hseats]; exact hb, rfl⟩
          · refine ⟨b, ?_, rfl⟩
            rw [book_flight_success c nm t hem hff hseats]
            dsimp only
            rw [lookupBooking_append, hb]
            rfl
      · exact ⟨b, by
          rw [book_flight_invalidEmail s fid p c nm t (by simpa using hem)]; exact hb, rfl⟩
    | cancel bid0 em t =>
      show ∃ b', lookupBooking (cancel_booking s bid0 em t).2.bookings bid = some b' ∧ _
      cases hb0 : lookupBooking s.bookings bid0 with
      | none => exact ⟨b, by rw [cancel_booking_notFound em t hb0]; exact hb, rfl⟩
      | some b0 =>
        by_cases hem : b0.passenger_email = em
        · by_cases hst : b0.status = .CANCELLED
          · exact ⟨b, by rw [cancel_booking_already t hb0 hem hst]; exact hb, rfl⟩
          · refine ⟨if bid == bid0
                then { b with status := .CANCELLED, cancellation_date := some t } else b,
              ?_, ?_⟩
            · rw [cancel_booking_success t hb0 hem hst]
              dsimp only
              rw [lookupBooking_updateBooking, hb]
              rfl
            · by_cases hbid : (bid == bid0) <;> simp [hbid]
        · exact ⟨b, by rw [cancel_booking_mismatch t hb0 hem]; exact hb, rfl⟩

/-! ## Witnesses: the spec scenarios instantiated through the claim theorems -/

theorem C1_seat_invariants_witness :
    jl005After.seats =
      initialSeats jl005After.id - confirmedSum (run demoOps).bookings jl005After.id ∧
    confirmedSum (run demoOps).bookings jl005After.id ≤ initialSeats jl005After.id ∧
    0 ≤ jl005After.seats ∧ jl005After.seats ≤ initialSeats jl005After.id := by
  have hops : ∀ op ∈ demoOps, OpNonneg op := by
    intro op hop
    simp only [demoOps, List.mem_singleton] at hop
    subst hop
    show (0 : ℤ) ≤ 2
    norm_num
  exact C1_seat_invariants demoOps hops jl005After (by decide)

theorem C2_book_success_witness :
    (book_flight seedState "JL005" 2 .business "John Smith" "john@email.com" 0).1 =
      .ok scBooking ∧
    scBooking.booking_id = "BK1000" ∧
    scBooking.status = .CONFIRMED ∧
    scBooking.total_price = 6000 ∧
    (book_flight seedState "JL005" 2 .business "John Smith" "john@email.com" 0).2.booking_counter
      = 1001 ∧
    seatsOf (book_flight seedState "JL005" 2 .business "John Smith" "john@email.com" 0).2
      "JL005" = 21 := by
  obtain ⟨b, h1, hbid, hstat, hfl, hpass, htot, hm1, hm2, hm3, hcnt, hledger, hseats⟩ :=
    C2_book_success seedState "JL005" 2 .business "John Smith" "john@email.com" 0 "NYC-TYO"
      scFlight (by decide) (by decide) (by decide)
  have h0 : (book_flight seedState "JL005" 2 .business "John Smith" "john@email.com" 0).1 =
      .ok scBooking := rfl
  have hb : b = scBooking := by
    have hok := h1.symm.trans h0
    simpa using hok
  subst hb
  refine ⟨h0, by decide, hstat, scBooking_total, hcnt, ?_⟩
  exact hseats.trans (by decide)

theorem C3_book_errors_witness :
    (book_flight seedState "JL005" 2 .economy "N" "bademail" 0).1 = .invalidEmail ∧
    (book_flight seedState "JL005" 2 .economy "N" "bademail" 0).2 = seedState := by
  have h := C3_book_errors seedState "JL005" 2 .economy "N" "bademail" 0
  have h1 : (book_flight seedState "JL005" 2 .economy "N" "bademail" 0).1 = .invalidEmail :=
    h.1.mpr (by decide)
  exact ⟨h1, h.2.2.2 (Or.inl h1)⟩

theorem C4_cancel_success_witness :
    (cancel_booking bookedState "BK1000" "john@email.com" 5).1 =
      CancelResult.ok "BK1000" 5400 6000 600 ∧
    seatsOf (cancel_booking bookedState "BK1000" "john@email.com" 5).2 "JL005" = 23 := by
  obtain ⟨h1, h2, h3, h4⟩ :=
    C4_cancel_success bookedState "BK1000" "john@email.com" 5 scBooking rfl rfl rfl
  constructor
  · rw [h1, scBooking_total, round2_refund, round2_fee]
  · have hf : findFlight bookedState.flights_db scBooking.flight_id =
        some ("NYC-TYO", jl005After) := by decide
    have hs := h3 "NYC-TYO" jl005After hf
    exact hs.trans (by decide)

theorem C5_cancel_errors_witness :
    (cancel_booking bookedState "BK1000" "wrong@email.com" 5).1 = .emailMismatch ∧
    (cancel_booking bookedState "BK1000" "wrong@email.com" 5).2 = bookedState := by
  have h := C5_cancel_errors bookedState "BK1000" "wrong@email.com" 5
  have h1 : (cancel_booking bookedState "BK1000" "wrong@email.com" 5).1 = .emailMismatch :=
    (h.2.1 scBooking rfl).mpr (by decide)
  exact ⟨h1, h.2.2.2 (Or.inr (Or.inl h1))⟩

theorem C6_search_spec_witness :
    (search_flights seedState "NYC" "NYC" "2025-02-15").1 = .invalidRoute ∧
    (search_flights seedState "NYC" "NYC" "2025-02-15").2 = seedState := by
  have h := C6_search_spec seedState "NYC" "NYC" "2025-02-15"
  exact ⟨h.1.mpr rfl, h.2.2.2.2⟩

theorem C7_availability_spec_witness :
    (check_flight_availability seedState "JL005" 2).1 =
      .ok "JL005" "NYC-TYO" 2 23 true 1200 (some 2400) "13:00" "16:00+1" ∧
    (check_flight_availability seedState "JL005" 2).2 = seedState := by
  have h := C7_availability_spec seedState "JL005" 2
  have h3 := h.2.2.1 (by norm_num) (by norm_num) "NYC-TYO" scFlight (by decide)
  exact ⟨h3.trans (by decide), h.2.2.2⟩

theorem C9_passengers_bound_witness :
    scBooking.passengers = 2 ∧
    ∃ r f, findFlight seedState.flights_db "JL005" = some (r, f) ∧ (2 : ℤ) ≤ f.seats ∧
      bookedState.bookings = seedState.bookings ++ [(scBooking.booking_id, scBooking)] :=
  C9_passengers_bound seedState "JL005" 2 .business "John Smith" "john@email.com" 0
    scBooking bookedState rfl

theorem C10_price_freezing_witness :
    lookupBooking (setPrice bookedState "JL005" 999).bookings "BK1000" =
      lookupBooking bookedState.bookings "BK1000" ∧
    ∃ b', lookupBooking (FlightBooking.step bookedState
        (Op.cancel "BK1000" "john@email.com" 5)).bookings "BK1000" = some b' ∧
      b'.total_price = scBooking.total_price :=
  ⟨C10_price_freezing.1 bookedState "JL005" 999 "BK1000",
   C10_price_freezing.2 bookedState (Op.cancel "BK1000" "john@email.com" 5) "BK1000"
     scBooking rfl⟩

end FlightBooking
